import Mathlib

/- Verification development for the eblog2doc repository: a shallow embedding
   of the discovery and extraction pipeline (scraper.py, the parsers package
   and document.py) together with theorems settling the specification claims.
   External collaborators of the pipeline (the HTTP fetcher, the HTML parser
   producing a DOM tree, urljoin) are modelled as explicit parameters or as
   an abstract document tree, exactly as the source treats them as opaque
   services; every function of the repository itself is translated from the
   source. -/

namespace Eblog2doc

/-- Calendar date as carried by the datetime values of the source. The source
only ever compares dates and never uses time-of-day, so a year/month/day
triple with the lexicographic order is an exact model of datetime values
produced by strptime and of their comparison. -/
structure PDate where
  year : Nat
  month : Nat
  day : Nat
deriving DecidableEq

/-- Comparison of two dates, mirroring datetime ordering: lexicographic on
year, then month, then day. -/
def PDate.lt (a b : PDate) : Bool :=
  decide (a.year < b.year) ||
    (decide (a.year = b.year) &&
      (decide (a.month < b.month) ||
        (decide (a.month = b.month) && decide (a.day < b.day))))

/-- Lexicographic comparison of character lists by Unicode code point,
mirroring the Python operator applied to str values in BlogPost lt
(parsers/base.py line 21): a proper prefix is smaller, otherwise the first
differing code point decides. -/
def pyCharListLt : List Char → List Char → Bool
  | _, [] => false
  | [], _ :: _ => true
  | a :: xs, b :: ys =>
    if a.toNat < b.toNat then true
    else if b.toNat < a.toNat then false
    else pyCharListLt xs ys

/-- String comparison as Python performs it on str values. -/
def pyStrLt (a b : String) : Bool := pyCharListLt a.data b.data

/-- BlogPost dataclass from parsers/base.py lines 8 to 16. -/
structure BlogPost where
  title : String
  url : String
  date : Option PDate := none
  author : Option String := none
  content_html : String := ""
deriving DecidableEq

/-- BlogPost lt from parsers/base.py lines 18 to 26: both dates missing
compares titles ascending; a missing date on the left yields False; a missing
date on the right yields True; otherwise the later date is smaller (reverse
chronological). -/
def BlogPost.lt (self other : BlogPost) : Bool :=
  match self.date, other.date with
  | none, none => pyStrLt self.title other.title
  | none, some _ => false
  | some _, none => true
  | some d1, some d2 => PDate.lt d2 d1

/-- Order in which a stable ascending sort driven by BlogPost lt arranges two
posts: a may stay before b exactly when b is not strictly smaller. -/
def postLe (a b : BlogPost) : Prop := BlogPost.lt b a = false

instance : DecidableRel postLe := fun a b => by unfold postLe; infer_instance

/-- Model of the sorted builtin applied in build_html_document (document.py
line 891). Python sorted is a stable comparison sort over lt; the stable
insertion sort over the induced postLe realizes the same rearrangement. -/
def sortPosts (posts : List BlogPost) : List BlogPost :=
  List.insertionSort postLe posts

theorem pdLt_irrefl (d : PDate) : PDate.lt d d = false := by
  simp [PDate.lt]

theorem pdLt_trans {a b c : PDate} (h1 : PDate.lt a b = true)
    (h2 : PDate.lt b c = true) : PDate.lt a c = true := by
  simp only [PDate.lt, Bool.or_eq_true, Bool.and_eq_true, decide_eq_true_eq] at *
  omega

theorem pdLt_asymm {a b : PDate} (h : PDate.lt a b = true) :
    PDate.lt b a = false := by
  simp only [PDate.lt, Bool.or_eq_true, Bool.and_eq_true, decide_eq_true_eq,
    Bool.or_eq_false_iff, Bool.and_eq_false_iff, decide_eq_false_iff_not] at *
  omega

theorem pd_eq_of_not_lt {a b : PDate} (h1 : PDate.lt a b = false)
    (h2 : PDate.lt b a = false) : a = b := by
  cases a; cases b
  simp only [PDate.lt, Bool.or_eq_false_iff, Bool.and_eq_false_iff,
    decide_eq_false_iff_not, PDate.mk.injEq] at *
  omega

theorem charEq_of_toNat_eq {a b : Char} (h : a.toNat = b.toNat) : a = b := by
  apply Char.ext
  apply UInt32.ext
  simpa [Char.toNat] using h

theorem pyCharListLt_cons (a b : Char) (xs ys : List Char) :
    pyCharListLt (a :: xs) (b :: ys) =
      (decide (a.toNat < b.toNat) ||
        (decide (a.toNat = b.toNat) && pyCharListLt xs ys)) := by
  simp only [pyCharListLt]
  rcases Nat.lt_trichotomy a.toNat b.toNat with h | h | h
  · simp [h]
  · simp [h, Nat.lt_irrefl]
  · simp [Nat.lt_asymm h, h, Nat.ne_of_gt h]

theorem pyCharListLt_irrefl (l : List Char) : pyCharListLt l l = false := by
  induction l with
  | nil => rfl
  | cons a xs ih => simp [pyCharListLt_cons, ih]

theorem pyCharListLt_trans {x : List Char} :
    ∀ {y z : List Char}, pyCharListLt x y = true → pyCharListLt y z = true →
      pyCharListLt x z = true := by
  induction x with
  | nil =>
    intro y z h1 h2
    cases y with
    | nil => simp [pyCharListLt] at h1
    | cons b ys =>
      cases z with
      | nil => simp [pyCharListLt] at h2
      | cons c zs => simp [pyCharListLt]
  | cons a xs ih =>
    intro y z h1 h2
    cases y with
    | nil => simp [pyCharListLt] at h1
    | cons b ys =>
      cases z with
      | nil => simp [pyCharListLt] at h2
      | cons c zs =>
        simp only [pyCharListLt_cons, Bool.or_eq_true, Bool.and_eq_true,
          decide_eq_true_eq] at h1 h2 ⊢
        rcases h1 with h1 | ⟨hab, h1⟩
        · rcases h2 with h2 | ⟨hbc, h2⟩
          · exact Or.inl (Nat.lt_trans h1 h2)
          · exact Or.inl (hbc ▸ h1)
        · rcases h2 with h2 | ⟨hbc, h2⟩
          · exact Or.inl (hab ▸ h2)
          · exact Or.inr ⟨hab.trans hbc, ih h1 h2⟩

theorem pyCharListLt_asymm {x : List Char} :
    ∀ {y : List Char}, pyCharListLt x y = true → pyCharListLt y x = false := by
  induction x with
  | nil =>
    intro y h
    cases y with
    | nil => simp [pyCharListLt] at h
    | cons b ys => simp [pyCharListLt]
  | cons a xs ih =>
    intro y h
    cases y with
    | nil => simp [pyCharListLt] at h
    | cons b ys =>
      simp only [pyCharListLt_cons, Bool.or_eq_true, Bool.and_eq_true,
        decide_eq_true_eq, Bool.or_eq_false_iff, Bool.and_eq_false_iff,
        decide_eq_false_iff_not] at h ⊢
      rcases h with h | ⟨hab, h⟩
      · exact ⟨Nat.lt_asymm h, Or.inl (Nat.ne_of_gt h)⟩
      · exact ⟨by omega, Or.inr (ih h)⟩

theorem pyCharList_eq_of_not_lt {x : List Char} :
    ∀ {y : List Char}, pyCharListLt x y = false → pyCharListLt y x = false →
      x = y := by
  induction x with
  | nil =>
    intro y h1 _
    cases y with
    | nil => rfl
    | cons b ys => simp [pyCharListLt] at h1
  | cons a xs ih =>
    intro y h1 h2
    cases y with
    | nil => simp [pyCharListLt] at h2
    | cons b ys =>
      simp only [pyCharListLt_cons, Bool.or_eq_false_iff,
        Bool.and_eq_false_iff, decide_eq_false_iff_not] at h1 h2
      have hab : a.toNat = b.toNat := by omega
      rcases h1.2 with h | h
      · exact absurd hab h
      · rcases h2.2 with h2b | h2b
        · exact absurd hab.symm h2b
        · exact by rw [charEq_of_toNat_eq hab, ih h h2b]

theorem pyStr_eq_of_not_lt {s t : String} (h1 : pyStrLt s t = false)
    (h2 : pyStrLt t s = false) : s = t := by
  cases s; cases t
  simp only [pyStrLt] at h1 h2
  exact congrArg String.mk (pyCharList_eq_of_not_lt h1 h2)

theorem post_lt_irrefl (a : BlogPost) : BlogPost.lt a a = false := by
  unfold BlogPost.lt
  cases h : a.date with
  | none => exact pyCharListLt_irrefl _
  | some d => exact pdLt_irrefl d

theorem post_lt_trans {a b c : BlogPost} (h1 : BlogPost.lt a b = true)
    (h2 : BlogPost.lt b c = true) : BlogPost.lt a c = true := by
  unfold BlogPost.lt at *
  cases ha : a.date <;> cases hb : b.date <;> cases hc : c.date <;>
    simp_all
  · exact pyCharListLt_trans h1 h2
  · exact pdLt_trans h2 h1

theorem post_lt_asymm {a b : BlogPost} (h : BlogPost.lt a b = true) :
    BlogPost.lt b a = false := by
  unfold BlogPost.lt at *
  cases ha : a.date <;> cases hb : b.date <;> simp_all
  · exact pyCharListLt_asymm h
  · exact pdLt_asymm h

/-- Two posts neither of which is below the other carry the same sort key:
either both dated with equal dates, or both undated with equal titles. Every
comparison against a third post then agrees. -/
theorem post_key_subst {a b : BlogPost} (h1 : BlogPost.lt a b = false)
    (h2 : BlogPost.lt b a = false) (c : BlogPost) :
    BlogPost.lt c a = BlogPost.lt c b ∧ BlogPost.lt a c = BlogPost.lt b c := by
  unfold BlogPost.lt at *
  cases ha : a.date <;> cases hb : b.date <;> simp_all
  · have := pyStr_eq_of_not_lt h1 h2
    cases hc : c.date <;> simp_all
  · have := pd_eq_of_not_lt h2 h1
    cases hc : c.date <;> simp_all

instance : IsTotal BlogPost postLe := by
  constructor
  intro a b
  unfold postLe
  by_cases h : BlogPost.lt b a = true
  · exact Or.inr (post_lt_asymm h)
  · exact Or.inl (by simpa using h)

instance : IsTrans BlogPost postLe := by
  constructor
  intro a b c h1 h2
  unfold postLe at *
  by_cases hca : BlogPost.lt c a = true
  · by_cases hab : BlogPost.lt a b = true
    · exact absurd (post_lt_trans hca hab) (by simp [h2])
    · have hba : BlogPost.lt b a = false := h1
      have := (post_key_subst (by simpa using hab) hba c).1
      rw [hca] at this
      exact absurd this.symm (by simp [h2])
  · simpa using hca

/-- C1: the ordering used for final assembly. For two dated posts the later
date sorts first; for two undated posts ascending title order applies; a
dated post always sorts before an undated one. This comparison is realized by
BlogPost lt and is a strict weak order: irreflexive, asymmetric (hence the
induced weak order is total), transitive, with transitive incomparability;
the stable ascending sort applied by build_html_document permutes the posts
into an arrangement sorted by the induced weak order. -/
theorem C1_assembly_order :
    (∀ a b : BlogPost, ∀ da db : PDate, a.date = some da → b.date = some db →
        (BlogPost.lt a b = true ↔ PDate.lt db da = true)) ∧
    (∀ a b : BlogPost, a.date = none → b.date = none →
        (BlogPost.lt a b = true ↔ pyStrLt a.title b.title = true)) ∧
    (∀ a b : BlogPost, a.date.isSome → b.date = none →
        BlogPost.lt a b = true ∧ BlogPost.lt b a = false) ∧
    (∀ a : BlogPost, BlogPost.lt a a = false) ∧
    (∀ a b : BlogPost, BlogPost.lt a b = true → BlogPost.lt b a = false) ∧
    (∀ a b c : BlogPost, BlogPost.lt a b = true → BlogPost.lt b c = true →
        BlogPost.lt a c = true) ∧
    (∀ a b c : BlogPost, BlogPost.lt a b = false → BlogPost.lt b a = false →
        BlogPost.lt b c = false → BlogPost.lt c b = false →
        BlogPost.lt a c = false ∧ BlogPost.lt c a = false) ∧
    (∀ posts : List BlogPost, (sortPosts posts).Perm posts ∧
        (sortPosts posts).Sorted postLe) := by
  refine ⟨?_, ?_, ?_, post_lt_irrefl, fun a b h => post_lt_asymm h,
    fun a b c h1 h2 => post_lt_trans h1 h2, ?_, ?_⟩
  · intro a b da db ha hb
    unfold BlogPost.lt
    rw [ha, hb]
  · intro a b ha hb
    unfold BlogPost.lt
    rw [ha, hb]
  · intro a b ha hb
    cases hd : a.date with
    | none => rw [hd] at ha; simp at ha
    | some d =>
      unfold BlogPost.lt
      rw [hd, hb]
      exact ⟨rfl, rfl⟩
  · intro a b c hab hba hbc hcb
    have k1 := (post_key_subst hab hba c).2
    rw [k1, hbc]
    have k2 := (post_key_subst hab hba c).1
    rw [k2, hcb]
    exact ⟨rfl, rfl⟩
  · intro posts
    exact ⟨List.perm_insertionSort postLe posts,
      List.sorted_insertionSort postLe posts⟩

/-- Witness: the C1 theorem applied at concrete posts, discharging each
hypothesis on explicit inputs. -/
theorem C1_assembly_order_witness :
    BlogPost.lt ⟨"b", "u1", some ⟨2025, 10, 31⟩, none, ""⟩
        ⟨"a", "u2", some ⟨2024, 1, 1⟩, none, ""⟩ = true ∧
    BlogPost.lt ⟨"alpha", "u1", none, none, ""⟩
        ⟨"beta", "u2", none, none, ""⟩ = true ∧
    BlogPost.lt ⟨"zzz", "u1", some ⟨2024, 1, 1⟩, none, ""⟩
        ⟨"aaa", "u2", none, none, ""⟩ = true := by
  refine ⟨(C1_assembly_order.1 _ _ ⟨2025, 10, 31⟩ ⟨2024, 1, 1⟩ rfl rfl).mpr
      (by decide), ?_, ?_⟩
  · exact (C1_assembly_order.2.1 _ _ rfl rfl).mpr (by decide)
  · exact ((C1_assembly_order.2.2.1 _ _ (by decide) rfl).1)

/- Crawl model for discover_posts (scraper.py lines 81 to 146). The loop
   treats the network fetcher, the parser operations and the pagination
   search as opaque services; they are the fields of CrawlWorld. A fetch
   that raises ScraperError is modelled as none. -/

/-- Collaborators consumed by one discovery run: fetch_url (none models a
raised ScraperError), parser.parse_index (html and base url), the parser
get_blog_title, and _find_pagination_link applied to the soup of the page
(html) and the current url. -/
structure CrawlWorld where
  fetch : String → Option String
  parseIndex : String → String → List BlogPost
  getBlogTitle : String → String
  findPagination : String → String → Option String

/-- Mutable locals of the discovery loop: all_posts, visited_urls,
pages_to_visit, blog_title and pages_visited. -/
structure CrawlState where
  allPosts : List BlogPost
  visited : List String
  queue : List String
  blogTitle : Option String
  pagesVisited : Nat
deriving DecidableEq

/-- Safety ceiling max_pages of scraper.py line 106. -/
def max_pages : Nat := 50

/-- Merge step of discover_posts (scraper.py lines 132 to 137): each parsed
post is appended only when its url is absent from the urls accumulated so
far; the url set grows as posts are appended, which is exactly membership in
the current accumulator. -/
def mergePosts (acc : List BlogPost) (new : List BlogPost) : List BlogPost :=
  new.foldl
    (fun cur p =>
      if (cur.map BlogPost.url).contains p.url then cur else cur ++ [p])
    acc

/-- Discovery loop of scraper.py lines 110 to 145, translated clause by
clause: pop the queue head, skip visited urls, mark visited and count the
page, fetch (continue on failure), resolve the blog title once, parse the
page against the original base url, merge posts, and enqueue the pagination
link unless already visited. The fuel argument only bounds the recursion
depth for Lean; discover_posts supplies fuel that exceeds the loop measure,
and the C3 theorem proves the loop always exits through its own guard. -/
def crawlLoop (w : CrawlWorld) (baseUrl : String) :
    Nat → CrawlState → CrawlState
  | 0, s => s
  | _ + 1, ⟨allPosts, visited, [], blogTitle, pv⟩ =>
    ⟨allPosts, visited, [], blogTitle, pv⟩
  | fuel + 1, ⟨allPosts, visited, currentUrl :: rest, blogTitle, pv⟩ =>
    if pv < max_pages then
      if visited.contains currentUrl then
        crawlLoop w baseUrl fuel ⟨allPosts, visited, rest, blogTitle, pv⟩
      else
        let visited1 := currentUrl :: visited
        let pv1 := pv + 1
        match w.fetch currentUrl with
        | none =>
          crawlLoop w baseUrl fuel ⟨allPosts, visited1, rest, blogTitle, pv1⟩
        | some html =>
          let title1 := match blogTitle with
            | none => some (w.getBlogTitle html)
            | some t => some t
          let all1 := mergePosts allPosts (w.parseIndex html baseUrl)
          let queue1 := match w.findPagination html currentUrl with
            | some nextUrl =>
              if visited1.contains nextUrl then rest else rest ++ [nextUrl]
            | none => rest
          crawlLoop w baseUrl fuel ⟨all1, visited1, queue1, title1, pv1⟩
    else ⟨allPosts, visited, currentUrl :: rest, blogTitle, pv⟩

/-- Loop measure: every iteration strictly decreases it, so fuel above the
initial measure is never exhausted. -/
def crawlMeasure (s : CrawlState) : Nat :=
  2 * (max_pages - s.pagesVisited) + s.queue.length

/-- Fuel that discover_posts supplies: one more than the initial measure. -/
def initFuel : Nat := 2 * max_pages + 2

/-- Final state of the discovery loop started on the given url. -/
def discoverState (w : CrawlWorld) (url : String) : CrawlState :=
  crawlLoop w url initFuel ⟨[], [], [url], none, 0⟩

/-- discover_posts (scraper.py lines 81 to 146): the accumulated posts and
the blog title after the final fallback (blog_title or "Blog"); the parser
in use is a field of the world and is returned unchanged by the source, so
it is omitted from the result. -/
def discover_posts (w : CrawlWorld) (url : String) : List BlogPost × String :=
  let s := discoverState w url
  (s.allPosts,
    match s.blogTitle with
    | some t => if t = "" then "Blog" else t
    | none => "Blog")

theorem mergePosts_nodup (new : List BlogPost) :
    ∀ acc : List BlogPost, (acc.map BlogPost.url).Nodup →
      ((mergePosts acc new).map BlogPost.url).Nodup := by
  induction new with
  | nil => intro acc h; exact h
  | cons p ps ih =>
    intro acc h
    show ((mergePosts (if (acc.map BlogPost.url).contains p.url then acc
      else acc ++ [p]) ps).map BlogPost.url).Nodup
    by_cases hc : (acc.map BlogPost.url).contains p.url
    · rw [if_pos hc]; exact ih acc h
    · rw [if_neg hc]
      apply ih
      have hmem : p.url ∉ acc.map BlogPost.url := by
        simpa using hc
      simp [List.nodup_append, h, hmem]

theorem crawlLoop_nodup (w : CrawlWorld) (baseUrl : String) :
    ∀ fuel s, (s.allPosts.map BlogPost.url).Nodup →
      (((crawlLoop w baseUrl fuel s).allPosts).map BlogPost.url).Nodup := by
  intro fuel
  induction fuel with
  | zero => intro s h; exact h
  | succ fuel ih =>
    rintro ⟨allPosts, visited, queue, blogTitle, pv⟩ h
    cases queue with
    | nil => rw [crawlLoop]; exact h
    | cons currentUrl rest =>
      rw [crawlLoop]
      by_cases h50 : pv < max_pages
      · rw [if_pos h50]
        by_cases hv : visited.contains currentUrl
        · rw [if_pos hv]; exact ih _ h
        · rw [if_neg hv]
          cases hf : w.fetch currentUrl with
          | none => exact ih _ h
          | some html => exact ih _ (mergePosts_nodup _ _ h)
      · rw [if_neg h50]; exact h

/-- C2: in every discovery run the posts returned by discover_posts carry
pairwise distinct url values; every merge checks each parsed post against
the urls accumulated across all pages visited so far before appending. -/
theorem C2_discovered_urls_distinct (w : CrawlWorld) (url : String) :
    (((discover_posts w url).1).map BlogPost.url).Nodup := by
  exact crawlLoop_nodup w url initFuel ⟨[], [], [url], none, 0⟩ (by simp)

theorem crawlLoop_guard_exit (w : CrawlWorld) (baseUrl : String) :
    ∀ fuel s, crawlMeasure s ≤ fuel →
      (crawlLoop w baseUrl fuel s).queue = [] ∨
        ¬ (crawlLoop w baseUrl fuel s).pagesVisited < max_pages := by
  intro fuel
  induction fuel with
  | zero =>
    rintro ⟨allPosts, visited, queue, blogTitle, pv⟩ hm
    unfold crawlMeasure at hm
    simp only [] at hm
    have : queue = [] := by
      cases queue with
      | nil => rfl
      | cons a l => simp only [List.length_cons] at hm; omega
    subst this
    exact Or.inl rfl
  | succ fuel ih =>
    rintro ⟨allPosts, visited, queue, blogTitle, pv⟩ hm
    cases queue with
    | nil => rw [crawlLoop]; exact Or.inl rfl
    | cons currentUrl rest =>
      unfold crawlMeasure at hm
      simp only [List.length_cons] at hm
      rw [crawlLoop]
      by_cases h50 : pv < max_pages
      · rw [if_pos h50]
        by_cases hv : visited.contains currentUrl
        · rw [if_pos hv]
          apply ih
          unfold crawlMeasure
          simp only []
          omega
        · rw [if_neg hv]
          cases hf : w.fetch currentUrl with
          | none =>
            apply ih
            unfold crawlMeasure
            simp only []
            omega
          | some html =>
            apply ih
            unfold crawlMeasure
            simp only []
            have : (match w.findPagination html currentUrl with
                | some nextUrl =>
                  if (currentUrl :: visited).contains nextUrl then rest
                  else rest ++ [nextUrl]
                | none => rest).length ≤ rest.length + 1 := by
              cases w.findPagination html currentUrl with
              | none => simp
              | some nextUrl =>
                show (if (currentUrl :: visited).contains nextUrl = true
                  then rest else rest ++ [nextUrl]).length ≤ rest.length + 1
                by_cases hvn : (currentUrl :: visited).contains nextUrl = true
                · rw [if_pos hvn]; omega
                · rw [if_neg hvn]; simp
            omega
      · rw [if_neg h50]
        exact Or.inr h50

theorem crawlLoop_visited_inv (w : CrawlWorld) (baseUrl : String) :
    ∀ fuel s, s.pagesVisited ≤ max_pages → s.visited.Nodup →
      s.visited.length = s.pagesVisited →
      (crawlLoop w baseUrl fuel s).pagesVisited ≤ max_pages ∧
        (crawlLoop w baseUrl fuel s).visited.Nodup ∧
        (crawlLoop w baseUrl fuel s).visited.length =
          (crawlLoop w baseUrl fuel s).pagesVisited := by
  intro fuel
  induction fuel with
  | zero => intro s h1 h2 h3; exact ⟨h1, h2, h3⟩
  | succ fuel ih =>
    rintro ⟨allPosts, visited, queue, blogTitle, pv⟩ h1 h2 h3
    have h1a : pv ≤ max_pages := h1
    have h2a : visited.Nodup := h2
    have h3a : visited.length = pv := h3
    cases queue with
    | nil => rw [crawlLoop]; exact ⟨h1, h2, h3⟩
    | cons currentUrl rest =>
      rw [crawlLoop]
      by_cases h50 : pv < max_pages
      · rw [if_pos h50]
        by_cases hv : visited.contains currentUrl
        · rw [if_pos hv]; exact ih _ h1 h2 h3
        · rw [if_neg hv]
          have hnm : currentUrl ∉ visited := by simpa using hv
          have hnodup : (currentUrl :: visited).Nodup := by
            simp [List.nodup_cons, hnm]
            exact h2a
          have hlen : (currentUrl :: visited).length = pv + 1 := by
            simp only [List.length_cons]
            omega
          have hpv : pv + 1 ≤ max_pages := by omega
          cases hf : w.fetch currentUrl with
          | none => exact ih _ hpv hnodup hlen
          | some html => exact ih _ hpv hnodup hlen
      · rw [if_neg h50]
        exact ⟨h1, h2, h3⟩

/-- Concrete post of the cyclic-pagination scenario. -/
def cyclePost : BlogPost :=
  { title := "A post", url := "https://e.com/blog/p1/" }

/-- Concrete world with a single index page whose pagination link points
back to the page itself: fetching the start url yields markup whose parse
produces one post and whose pagination search returns the start url again. -/
def cycleWorld : CrawlWorld where
  fetch := fun u => if u = "https://e.com/blog/" then some "PAGE" else none
  parseIndex := fun html _ => if html = "PAGE" then [cyclePost] else []
  getBlogTitle := fun _ => "T"
  findPagination := fun html _ =>
    if html = "PAGE" then some "https://e.com/blog/" else none

/-- C3: the discovery loop always exits through its own guard (queue empty
or page ceiling reached), never fetches a url twice, fetches at most
max_pages pages (the visited list records exactly the fetch attempts), and
on the concrete cyclic world the run ends after one page, returning the
posts collected before the cycle. -/
theorem C3_crawl_termination :
    (∀ w url,
      ((discoverState w url).queue = [] ∨
        (discoverState w url).pagesVisited = max_pages) ∧
      (discoverState w url).pagesVisited ≤ max_pages ∧
      (discoverState w url).visited.Nodup ∧
      (discoverState w url).visited.length =
        (discoverState w url).pagesVisited) ∧
    discover_posts cycleWorld "https://e.com/blog/" = ([cyclePost], "T") := by
  constructor
  · intro w url
    have hinv := crawlLoop_visited_inv w url initFuel ⟨[], [], [url], none, 0⟩
      (by simp [max_pages]) (by simp) (by simp)
    have hexit := crawlLoop_guard_exit w url initFuel ⟨[], [], [url], none, 0⟩
      (by simp [crawlMeasure, initFuel, max_pages])
    refine ⟨?_, hinv.1, hinv.2.1, hinv.2.2⟩
    rcases hexit with h | h
    · exact Or.inl h
    · exact Or.inr (by
        have := hinv.1
        unfold discoverState
        omega)
  · decide

/- String utilities mirroring the exact Python primitives the source uses.
   All of them are written over character lists so that every theorem about
   a concrete input evaluates inside the kernel. -/

/-- Containment of one character list in another, the Python operator in
applied to str values (pattern as first argument). -/
def hasSubList (pat : List Char) : List Char → Bool
  | [] => pat.isEmpty
  | c :: rest => pat.isPrefixOf (c :: rest) || hasSubList pat rest

/-- Containment test hasSub s pat, true when pat occurs inside s. -/
def hasSub (s pat : String) : Bool := hasSubList pat.data s.data

/-- Replacement worker for str.replace: scans left to right, substituting
each non-overlapping occurrence of the pattern. The fuel equals the input
length and every step consumes at least one character, so it never runs
out; an empty pattern is never used by the source and is left unchanged. -/
def replaceAllFuel (pat repl : List Char) : Nat → List Char → List Char
  | 0, s => s
  | _ + 1, [] => []
  | fuel + 1, c :: rest =>
    if !pat.isEmpty && pat.isPrefixOf (c :: rest) then
      repl ++ replaceAllFuel pat repl fuel (List.drop (pat.length - 1) rest)
    else
      c :: replaceAllFuel pat repl fuel rest

/-- Python str.replace: every occurrence of pat replaced by repl. -/
def replaceAll (s pat repl : String) : String :=
  ⟨replaceAllFuel pat.data repl.data s.data.length s.data⟩

/-- Prefix of a character list up to the first occurrence of any delimiter. -/
def takeUntilAny (delims : List Char) : List Char → List Char
  | [] => []
  | c :: rest => if delims.contains c then [] else c :: takeUntilAny delims rest

/-- Suffix after the first occurrence of the pattern, none when absent. -/
def afterFirst (pat : List Char) : List Char → Option (List Char)
  | [] => if pat.isEmpty then some [] else none
  | c :: rest =>
    if pat.isPrefixOf (c :: rest) then some (List.drop pat.length (c :: rest))
    else afterFirst pat rest

/-- Model of the netloc component of urlparse (urllib collaborator) for
absolute URLs: the text between the scheme separator and the next slash,
question mark or hash; a url without a scheme separator has empty netloc. -/
def urlNetloc (url : String) : String :=
  match afterFirst "://".data url.data with
  | some rest => ⟨takeUntilAny ['/', '?', '#'] rest⟩
  | none => ""

/-- Model of the path component of urlparse for absolute URLs: everything
after the netloc up to the first question mark or hash; for a url without a
scheme separator the whole text up to the first question mark or hash. -/
def urlPath (url : String) : String :=
  match afterFirst "://".data url.data with
  | some rest =>
    ⟨takeUntilAny ['?', '#']
      (List.drop (takeUntilAny ['/', '?', '#'] rest).length rest)⟩
  | none => ⟨takeUntilAny ['?', '#'] url.data⟩

/-- Parser variants of the registry plus the generic fallback; the source
instantiates a parser class, and only the identity of the class matters. -/
inductive ParserKind where
  | cedardb
  | tigerbeetle
  | sirupsen
  | generic
deriving DecidableEq

/-- PARSER_REGISTRY of scraper.py lines 18 to 22. -/
def PARSER_REGISTRY : List (String × ParserKind) :=
  [("cedardb.com", ParserKind.cedardb),
   ("tigerbeetle.com", ParserKind.tigerbeetle),
   ("sirupsen.com", ParserKind.sirupsen)]

/-- Dictionary lookup with the Generic default, the registry dot get call of
scraper.py line 52. -/
def registryGet (d : List (String × ParserKind)) (k : String) : ParserKind :=
  match d.find? (fun kv => kv.1 == k) with
  | some kv => kv.2
  | none => ParserKind.generic

/-- getParser of scraper.py lines 39 to 53: the netloc of the url with
every occurrence of "www." removed (Python str.replace substitutes all
occurrences, not only a leading one), looked up in the registry. -/
def getParser (url : String) : ParserKind :=
  registryGet PARSER_REGISTRY (replaceAll (urlNetloc url) "www." "")

/-- Normalization as claim C6 words it (refinement comparison definition):
strip one leading "www." prefix only, leaving other occurrences untouched. -/
def stripLeadingWwwSpec (domain : String) : String :=
  if "www.".data.isPrefixOf domain.data then ⟨domain.data.drop 4⟩ else domain

/-- Parser selection as claim C6 words it (refinement comparison
definition): leading-only normalization before the registry lookup. -/
def getParserSpec (url : String) : ParserKind :=
  registryGet PARSER_REGISTRY (stripLeadingWwwSpec (urlNetloc url))

/-- C6 counterexample: on the host www.www.cedardb.com the source removes
every occurrence of "www." and selects the CedarDB parser, while the claimed
leading-only normalization would leave www.cedardb.com, a domain absent from
the registry, selecting the Generic parser; so occurrences of "www." other
than a leading one are not left untouched. -/
theorem C6_counterexample :
    getParser "https://www.www.cedardb.com/blog/" = ParserKind.cedardb ∧
    getParserSpec "https://www.www.cedardb.com/blog/" = ParserKind.generic ∧
    replaceAll (urlNetloc "https://www.www.cedardb.com/blog/") "www." "" =
      "cedardb.com" ∧
    stripLeadingWwwSpec (urlNetloc "https://www.www.cedardb.com/blog/") =
      "www.cedardb.com" := by
  exact ⟨by decide, by decide, by decide, by decide⟩

theorem registryGet_eq (k : String) :
    registryGet PARSER_REGISTRY k =
      if k = "cedardb.com" then ParserKind.cedardb
      else if k = "tigerbeetle.com" then ParserKind.tigerbeetle
      else if k = "sirupsen.com" then ParserKind.sirupsen
      else ParserKind.generic := by
  simp only [registryGet, PARSER_REGISTRY, List.find?]
  by_cases h1 : k = "cedardb.com"
  · subst h1; simp
  · rw [if_neg h1]
    by_cases h2 : k = "tigerbeetle.com"
    · subst h2; simp
    · rw [if_neg h2]
      by_cases h3 : k = "sirupsen.com"
      · subst h3; simp
      · rw [if_neg h3]
        have b1 : ("cedardb.com" == k) = false := by
          simp [Ne.symm h1]
        have b2 : ("tigerbeetle.com" == k) = false := by
          simp [Ne.symm h2]
        have b3 : ("sirupsen.com" == k) = false := by
          simp [Ne.symm h3]
        simp [b1, b2, b3]

/-- C6 amended: parser selection is a pure function of the target url
domain, normalized by removing EVERY occurrence of "www." from the netloc
(not only a leading one); the three registry domains select their site
parsers and exactly the normalized domains outside the registry select the
Generic parser. -/
theorem C6_parser_dispatch (url : String) :
    (∀ url2 : String, urlNetloc url = urlNetloc url2 →
        getParser url = getParser url2) ∧
    (replaceAll (urlNetloc url) "www." "" = "cedardb.com" ↔
        getParser url = ParserKind.cedardb) ∧
    (replaceAll (urlNetloc url) "www." "" = "tigerbeetle.com" ↔
        getParser url = ParserKind.tigerbeetle) ∧
    (replaceAll (urlNetloc url) "www." "" = "sirupsen.com" ↔
        getParser url = ParserKind.sirupsen) ∧
    (replaceAll (urlNetloc url) "www." "" ∉
        (["cedardb.com", "tigerbeetle.com", "sirupsen.com"] : List String) ↔
      getParser url = ParserKind.generic) := by
  unfold getParser
  rw [registryGet_eq]
  refine ⟨?_, ?_, ?_, ?_, ?_⟩
  · intro url2 h
    rw [h, registryGet_eq]
  all_goals
    by_cases h1 : replaceAll (urlNetloc url) "www." "" = "cedardb.com" <;>
      simp [h1] <;>
    by_cases h2 : replaceAll (urlNetloc url) "www." "" = "tigerbeetle.com" <;>
      simp [h2] <;>
    by_cases h3 : replaceAll (urlNetloc url) "www." "" = "sirupsen.com" <;>
      simp [h3]

/-- Witness: the C6 amended theorem applied at concrete urls. -/
theorem C6_parser_dispatch_witness :
    getParser "https://www.cedardb.com/blog/" = ParserKind.cedardb ∧
    getParser "https://unknown.example/" = ParserKind.generic := by
  exact ⟨(C6_parser_dispatch "https://www.cedardb.com/blog/").2.1.mp
      (by decide),
    (C6_parser_dispatch "https://unknown.example/").2.2.2.2.mp (by decide)⟩

/- DOM model. BeautifulSoup with the lenient html5lib backend is an external
   collaborator: it turns raw markup into a tree and never raises. The
   functions of the repository operate on that tree, so the embedding takes
   the parsed tree as input; serialization back to a string at the return
   boundary is the identity on the extracted subtree. -/

/-- Whitespace for the strip calls of the source (space, tab, newline,
carriage return, vertical tab, form feed). -/
def pySpace (c : Char) : Bool :=
  c = ' ' || c = '\t' || c = '\n' || c = '\r' || c = '\x0b' || c = '\x0c'

/-- Python str.strip with no argument: surrounding whitespace removed. -/
def trimChars (s : List Char) : List Char :=
  ((s.dropWhile pySpace).reverse.dropWhile pySpace).reverse

/-- Python str.lower on the ASCII range the heuristics compare. -/
def lowerChars (s : List Char) : List Char := s.map Char.toLower

/-- Split on whitespace runs, dropping empty pieces: how the multi-valued
class attribute is tokenized. -/
def splitWsAux (acc : List Char) : List Char → List (List Char)
  | [] => if acc.isEmpty then [] else [acc.reverse]
  | c :: rest =>
    if pySpace c then
      (if acc.isEmpty then [] else [acc.reverse]) ++ splitWsAux [] rest
    else splitWsAux (c :: acc) rest

/-- Parsed DOM node: an element with tag, attributes and children, or a
text node. -/
inductive Node where
  | elem (tag : String) (attrs : List (String × String)) (children : List Node)
  | text (s : String)

/-- Attribute lookup with empty-string default, the tag get call. -/
def Node.attr (n : Node) (key : String) : String :=
  match n with
  | .elem _ attrs _ =>
    match attrs.find? (fun kv => kv.1 == key) with
    | some kv => kv.2
    | none => ""
  | .text _ => ""

/-- Attribute presence, the href equals True style filter of find_all. -/
def Node.hasAttr (n : Node) (key : String) : Bool :=
  match n with
  | .elem _ attrs _ => attrs.any (fun kv => kv.1 == key)
  | .text _ => false

/-- Children of an element; a text node has none. -/
def Node.children : Node → List Node
  | .elem _ _ cs => cs
  | .text _ => []

/-- Class tokens of an element, the class attribute split on whitespace. -/
def Node.classList (n : Node) : List (List Char) :=
  splitWsAux [] (n.attr "class").data

mutual
/-- get_text with strip True: every text fragment stripped of surrounding
whitespace and concatenated in document order. -/
def nodeTextStrip : Node → List Char
  | .text s => trimChars s.data
  | .elem _ _ cs => nodeTextStripList cs
def nodeTextStripList : List Node → List Char
  | [] => []
  | c :: cs => nodeTextStrip c ++ nodeTextStripList cs
end

mutual
/-- Soup find: the first node in document order (the searched node itself,
then its descendants) satisfying the predicate. -/
def findFirst (p : Node → Bool) : Node → Option Node
  | .text s => if p (.text s) then some (.text s) else none
  | .elem t a cs =>
    if p (.elem t a cs) then some (.elem t a cs) else findFirstList p cs
def findFirstList (p : Node → Bool) : List Node → Option Node
  | [] => none
  | c :: cs =>
    match findFirst p c with
    | some r => some r
    | none => findFirstList p cs
end

mutual
/-- Soup find_all: every node in document order satisfying the predicate. -/
def findAll (p : Node → Bool) : Node → List Node
  | .text s => if p (.text s) then [.text s] else []
  | .elem t a cs =>
    (if p (.elem t a cs) then [.elem t a cs] else []) ++ findAllList p cs
def findAllList (p : Node → Bool) : List Node → List Node
  | [] => []
  | c :: cs => findAll p c ++ findAllList p cs
end

mutual
/-- Effect on the tree of decomposing every element of find_all(pred): a
descendant satisfying the predicate is removed with its whole subtree; the
root itself is never tested, because find_all on an element searches its
descendants only. -/
def removeAll (p : Node → Bool) : Node → Node
  | .text s => .text s
  | .elem t a cs => .elem t a (removeAllList p cs)
def removeAllList (p : Node → Bool) : List Node → List Node
  | [] => []
  | c :: cs => (if p c then [] else [removeAll p c]) ++ removeAllList p cs
end

mutual
/-- Effect of decomposing the first find(pred) descendant: the boolean
records whether a removal happened in this subtree. -/
def removeFirstAux (p : Node → Bool) : Node → Node × Bool
  | .text s => (.text s, false)
  | .elem t a cs =>
    let r := removeFirstListAux p cs
    (.elem t a r.1, r.2)
def removeFirstListAux (p : Node → Bool) : List Node → List Node × Bool
  | [] => ([], false)
  | c :: cs =>
    if p c then (cs, true)
    else
      let r := removeFirstAux p c
      if r.2 then (r.1 :: cs, true)
      else
        let rs := removeFirstListAux p cs
        (r.1 :: rs.1, rs.2)
end

/-- Tree after decomposing the first descendant matching the predicate. -/
def removeFirst (p : Node → Bool) (n : Node) : Node := (removeFirstAux p n).1

mutual
/-- Independent checker: is an element with the given tag present anywhere
in the tree, the root included. -/
def hasTag (t : String) : Node → Bool
  | .text _ => false
  | .elem tag _ cs => tag == t || hasTagList t cs
def hasTagList (t : String) : List Node → Bool
  | [] => false
  | c :: cs => hasTag t c || hasTagList t cs
end

/-- Element with exactly the given tag name. -/
def isTag (t : String) (n : Node) : Bool :=
  match n with
  | .elem tag _ _ => tag == t
  | .text _ => false

/-- Element whose tag name is in the list. -/
def isTagIn (ts : List String) (n : Node) : Bool :=
  match n with
  | .elem tag _ _ => ts.contains tag
  | .text _ => false

/-- Element one of whose class tokens contains one of the given lowercase
fragments: the class underscore regex filters of the source, whose patterns
are unanchored case-insensitive alternations. -/
def classMatchesSub (pats : List String) (n : Node) : Bool :=
  match n with
  | .elem _ _ _ =>
    n.classList.any (fun cls => pats.any
      (fun pat => hasSubList pat.data (lowerChars cls)))
  | .text _ => false

/-- Element carrying an id attribute whose value contains one of the given
lowercase fragments: the id regex filter of the generic parser. -/
def idMatchesSub (pats : List String) (n : Node) : Bool :=
  match n with
  | .elem _ _ _ =>
    n.hasAttr "id" && pats.any
      (fun pat => hasSubList pat.data (lowerChars (n.attr "id").data))
  | .text _ => false

/-- First selector of a list that finds a node, the chain of or-ed soup
find calls of the parse_post implementations. -/
def findFirstBySelectors : List (Node → Bool) → Node → Option Node
  | [], _ => none
  | p :: ps, doc =>
    match findFirst p doc with
    | some r => some r
    | none => findFirstBySelectors ps doc

/- parse_post embeddings (generic.py lines 220 to 248 and cedardb.py lines
   86 to 135). -/

/-- Wrapper tags stripped by the generic parse_post on a found container and
on the body fallback (generic.py lines 237 and 244). -/
def strippedTags : List String :=
  ["nav", "header", "footer", "aside", "script", "style"]

/-- Selector list of GenericParser parse_post (generic.py lines 225 to
231): article, main, div with a specific content class, div with a generic
content class, div with a content id; first match wins. -/
def genericSelectors : List (Node → Bool) :=
  [isTag "article", isTag "main",
   fun n => isTag "div" n &&
     classMatchesSub ["post-content", "article-content", "entry-content"] n,
   fun n => isTag "div" n && classMatchesSub ["content", "post", "article"] n,
   fun n => isTag "div" n && idMatchesSub ["content", "post", "article"] n]

/-- GenericParser parse_post (generic.py lines 220 to 248): the first
container matched by the selector list, stripped of the wrapper tags;
otherwise the body, stripped the same way; otherwise the input unchanged
(the source returns the raw html string there). -/
def generic_parse_post (doc : Node) : Node :=
  match findFirstBySelectors genericSelectors doc with
  | some article => removeAll (isTagIn strippedTags) article
  | none =>
    match findFirst (isTag "body") doc with
    | some body => removeAll (isTagIn strippedTags) body
    | none => doc

/-- Anchor with an href containing /blog/, the find_all filter of the
related-posts heuristic (cedardb.py line 122). -/
def blogLinkPred (n : Node) : Bool :=
  match n with
  | .elem tag _ _ =>
    tag == "a" && n.hasAttr "href" &&
      hasSubList "/blog/".data (n.attr "href").data
  | .text _ => false

/-- Section or div containing three or more blog links among its
descendants (cedardb.py lines 120 to 124). -/
def relatedSectionPred (n : Node) : Bool :=
  isTagIn ["section", "div"] n &&
    decide ((findAllList blogLinkPred n.children).length ≥ 3)

/-- Container chain of CedarDBParser parse_post (cedardb.py lines 91 to
95): article, main, div with a content-like class. -/
def cedardbSelectors : List (Node → Bool) :=
  [isTag "article", isTag "main",
   fun n => isTag "div" n && classMatchesSub ["content", "post", "article"] n]

/-- CedarDBParser parse_post (cedardb.py lines 86 to 135): on a found
container, the cleanup passes in source order (wrapper tags, author or
byline or meta or date classes, listing classes, button classes, cta
classes, related-post sections, first h1); with no container the body is
returned unchanged, and with no body the input itself. -/
def cedardb_parse_post (doc : Node) : Node :=
  match findFirstBySelectors cedardbSelectors doc with
  | some article =>
    let a1 := removeAll (isTagIn ["nav", "header", "footer", "aside"]) article
    let a2 := removeAll (classMatchesSub ["author", "byline", "meta", "date"]) a1
    let a3 := removeAll (classMatchesSub ["listing"]) a2
    let a4 := removeAll (classMatchesSub ["button"]) a3
    let a5 := removeAll
      (classMatchesSub ["cta", "start-now", "signup", "waitlist"]) a4
    let a6 := removeAll relatedSectionPred a5
    removeFirst (isTag "h1") a6
  | none =>
    match findFirst (isTag "body") doc with
    | some body => body
    | none => doc

/-- Concrete page with no recognizable container: the body holds a nav bar
and a paragraph. -/
def noContainerDoc : Node :=
  .elem "html" [] [
    .elem "body" [] [
      .elem "nav" [] [.text "menu"],
      .elem "p" [] [.text "hello world"]]]

/-- C4 counterexample: on a page with no recognizable article container the
CedarDB parse_post returns the body with its nav subtree still present (the
fallback of cedardb.py lines 133 to 135 strips nothing), while the generic
parse_post does strip it; so the claim that every parse_post implementation
returns the body with navigation subtrees stripped fails on the site
parsers. -/
theorem C4_counterexample :
    hasTag "nav" (cedardb_parse_post noContainerDoc) = true ∧
    hasTag "nav" (generic_parse_post noContainerDoc) = false := by
  exact ⟨by rfl, by rfl⟩

mutual
theorem hasTag_removeAll_isTagIn (ts : List String) (t : String)
    (ht : t ∈ ts) :
    ∀ n : Node, isTagIn ts n = false →
      hasTag t (removeAll (isTagIn ts) n) = false
  | .text _, _ => by simp [removeAll, hasTag]
  | .elem tag a cs, h => by
    simp only [removeAll, hasTag]
    have htag : (tag == t) = false := by
      simp only [isTagIn] at h
      simp only [beq_eq_false_iff_ne]
      intro he
      subst he
      exact absurd ht (by simpa using h)
    rw [htag]
    simp only [Bool.false_or]
    exact hasTagList_removeAllList_isTagIn ts t ht cs
theorem hasTagList_removeAllList_isTagIn (ts : List String) (t : String)
    (ht : t ∈ ts) :
    ∀ cs : List Node, hasTagList t (removeAllList (isTagIn ts) cs) = false
  | [] => by simp [removeAllList, hasTagList]
  | c :: cs => by
    simp only [removeAllList]
    by_cases hc : isTagIn ts c = true
    · rw [if_pos hc]
      simpa using hasTagList_removeAllList_isTagIn ts t ht cs
    · rw [if_neg hc]
      simp only [List.cons_append, List.nil_append, hasTagList,
        Bool.or_eq_false_iff]
      exact ⟨hasTag_removeAll_isTagIn ts t ht c (by simpa using hc),
        hasTagList_removeAllList_isTagIn ts t ht cs⟩
end

mutual
theorem findFirst_pred (p : Node → Bool) :
    ∀ n m : Node, findFirst p n = some m → p m = true
  | .text s, m => by
    simp only [findFirst]
    by_cases h : p (.text s) = true
    · rw [if_pos h]
      intro he
      cases he
      exact h
    · rw [if_neg h]
      intro he
      cases he
  | .elem t a cs, m => by
    simp only [findFirst]
    by_cases h : p (.elem t a cs) = true
    · rw [if_pos h]
      intro he
      cases he
      exact h
    · rw [if_neg h]
      exact findFirstList_pred p cs m
theorem findFirstList_pred (p : Node → Bool) :
    ∀ (cs : List Node) (m : Node), findFirstList p cs = some m → p m = true
  | [], m => by intro he; cases he
  | c :: cs, m => by
    simp only [findFirstList]
    cases hf : findFirst p c with
    | some r =>
      intro he
      cases he
      exact findFirst_pred p c m hf
    | none => exact findFirstList_pred p cs m
end

/-- C4 corrected: every parse_post embedding is total and falls back to the
page body when no recognizable container is found, but only the generic
parser strips the navigation wrapper subtrees there; the CedarDB parser
(representative of the site parsers) returns the body unchanged, and with
no body at all both return the input page. -/
theorem C4_parse_post_fallback (doc : Node)
    (hsel : findFirstBySelectors genericSelectors doc = none)
    (hced : findFirstBySelectors cedardbSelectors doc = none) :
    (∀ body : Node, findFirst (isTag "body") doc = some body →
      generic_parse_post doc = removeAll (isTagIn strippedTags) body ∧
      (∀ t ∈ strippedTags, hasTag t (generic_parse_post doc) = false) ∧
      cedardb_parse_post doc = body) ∧
    (findFirst (isTag "body") doc = none →
      generic_parse_post doc = doc ∧ cedardb_parse_post doc = doc) := by
  constructor
  · intro body hbody
    have hbtag : isTag "body" body = true := findFirst_pred _ doc body hbody
    have hnotin : isTagIn strippedTags body = false := by
      cases body with
      | text s => rfl
      | elem tag a cs =>
        simp only [isTag, beq_iff_eq] at hbtag
        subst hbtag
        rfl
    refine ⟨?_, ?_, ?_⟩
    · unfold generic_parse_post
      rw [hsel, hbody]
    · intro t htmem
      unfold generic_parse_post
      rw [hsel, hbody]
      exact hasTag_removeAll_isTagIn strippedTags t htmem body hnotin
    · unfold cedardb_parse_post
      rw [hced, hbody]
  · intro hnone
    constructor
    · unfold generic_parse_post
      rw [hsel, hnone]
    · unfold cedardb_parse_post
      rw [hced, hnone]

/-- Witness: the corrected C4 theorem applied to the concrete container-free
page, discharging the selector-failure hypotheses by evaluation. -/
theorem C4_parse_post_fallback_witness :
    generic_parse_post noContainerDoc =
      removeAll (isTagIn strippedTags)
        (Node.elem "body" [] [Node.elem "nav" [] [Node.text "menu"],
          Node.elem "p" [] [Node.text "hello world"]]) ∧
    cedardb_parse_post noContainerDoc =
      Node.elem "body" [] [Node.elem "nav" [] [Node.text "menu"],
        Node.elem "p" [] [Node.text "hello world"]] := by
  have h := (C4_parse_post_fallback noContainerDoc (by rfl) (by rfl)).1
    (Node.elem "body" [] [Node.elem "nav" [] [Node.text "menu"],
      Node.elem "p" [] [Node.text "hello world"]]) (by rfl)
  exact ⟨h.1, h.2.2⟩

/- CedarDB index parsing (cedardb.py lines 19 to 84) and the strptime date
   model it needs. -/

/-- Match of the date regex dd/dd/dddd anchored at the start of the text:
returns the ten matched characters. -/
def ddmmyyyyAt : List Char → Option (List Char)
  | d1 :: d2 :: s1 :: m1 :: m2 :: s2 :: y1 :: y2 :: y3 :: y4 :: _ =>
    if d1.isDigit && d2.isDigit && s1 = '/' && m1.isDigit && m2.isDigit &&
        s2 = '/' && y1.isDigit && y2.isDigit && y3.isDigit && y4.isDigit then
      some [d1, d2, s1, m1, m2, s2, y1, y2, y3, y4]
    else none
  | _ => none

/-- Unanchored search for the same date regex: leftmost match wins. -/
def searchDdmmyyyy : List Char → Option (List Char)
  | [] => none
  | c :: rest =>
    match ddmmyyyyAt (c :: rest) with
    | some m => some m
    | none => searchDdmmyyyy rest

/-- Value of a run of decimal digits. -/
def digitsToNat (s : List Char) : Nat :=
  s.foldl (fun acc c => 10 * acc + (c.toNat - 48)) 0

/-- Gregorian leap year rule as datetime applies it. -/
def isLeapYear (y : Nat) : Bool :=
  (y % 4 == 0 && y % 100 != 0) || y % 400 == 0

/-- Days of a month as datetime validates them. -/
def daysInMonth (y m : Nat) : Nat :=
  if m = 2 then (if isLeapYear y then 29 else 28)
  else if m = 4 ∨ m = 6 ∨ m = 9 ∨ m = 11 then 30
  else 31

/-- strptime with format %d/%m/%Y applied to a text the date regex matched:
the date when it denotes a real calendar day of a positive year, otherwise
none, which models the swallowed ValueError. -/
def strptimeDdmmYYYY (s : List Char) : Option PDate :=
  match s with
  | [d1, d2, _, m1, m2, _, y1, y2, y3, y4] =>
    let d := digitsToNat [d1, d2]
    let m := digitsToNat [m1, m2]
    let y := digitsToNat [y1, y2, y3, y4]
    if 1 ≤ y ∧ 1 ≤ m ∧ m ≤ 12 ∧ 1 ≤ d ∧ d ≤ daysInMonth y m then
      some ⟨y, m, d⟩
    else none
  | _ => none

/-- Anchor elements carrying an href, the find_all filter common to the
index parsers and the pagination search. -/
def anchorPred (n : Node) : Bool :=
  match n with
  | .elem tag _ _ => tag == "a" && n.hasAttr "href"
  | .text _ => false

/-- Python rstrip with a slash argument. -/
def rstripSlash (s : List Char) : List Char :=
  (s.reverse.dropWhile (fun c => c = '/')).reverse

/-- Python str.endswith. -/
def endsWithList (suffix s : List Char) : Bool :=
  suffix.reverse.isPrefixOf s.reverse

/-- Element find restricted to descendants, the find call on an element. -/
def findDesc (p : Node → Bool) (n : Node) : Option Node :=
  findFirstList p n.children

/-- CedarDBParser parse_index (cedardb.py lines 19 to 84), with urljoin of
the urllib collaborator passed as the join argument: keep anchors whose
href points into /blog/ without being the blog index and without
subscription markers; prefer the text of a nested h3 as title, otherwise
the link text with a leading DD/MM/YYYY literal stripped; drop titles
shorter than five characters; take the date from the first DD/MM/YYYY
literal anywhere in the full link text via strptime; deduplicate by
resolved url. -/
def cedardb_parse_index (join : String → String → String) (doc : Node)
    (baseUrl : String) : List BlogPost :=
  (findAll anchorPred doc).foldl (fun posts link =>
    let href := link.attr "href"
    if !(hasSub href "/blog/") ||
        endsWithList "/blog".data (rstripSlash href.data) then posts
    else if hasSub ⟨lowerChars href.data⟩ "subscribe" ||
        hasSub ⟨lowerChars href.data⟩ "newsletter" ||
        hasSub ⟨lowerChars href.data⟩ "#" then posts
    else
      let titleOpt : Option String :=
        match findDesc (isTag "h3") link with
        | some h3 => some ⟨nodeTextStrip h3⟩
        | none =>
          let t := nodeTextStrip link
          if t.isEmpty then none
          else
            match ddmmyyyyAt t with
            | some m => some ⟨trimChars (t.drop m.length)⟩
            | none => some ⟨t⟩
      match titleOpt with
      | none => posts
      | some title =>
        if title.data.isEmpty ∨ title.data.length < 5 then posts
        else
          let date := match searchDdmmyyyy (nodeTextStrip link) with
            | some m => strptimeDdmmYYYY m
            | none => none
          let url := join baseUrl href
          if posts.any (fun p => p.url == url) then posts
          else posts ++ [{ title := title, url := url, date := date }])
    []

/-- Concrete CedarDB index page of the C8 example: the anchor text starts
with the date literal and a nested h3 heading holds the clean title, so the
stripped link text is the concatenation 31/10/2025Database Internals
Explained. -/
def cedardbExampleDoc : Node :=
  .elem "html" [] [
    .elem "body" [] [
      .elem "a" [("href", "/blog/database-internals/")] [
        .text "31/10/2025",
        .elem "h3" [] [.text "Database Internals Explained"]]]]

/-- C8: on CedarDB-style markup whose link text is the concatenation of the
DD/MM/YYYY literal and the title, with the title in a nested heading, the
discovered post takes its title from the nested heading and its date
2025-10-31 from the leading date literal of the link text. -/
theorem C8_cedardb_example :
    (nodeTextStrip (Node.elem "a" [("href", "/blog/database-internals/")]
        [Node.text "31/10/2025",
         Node.elem "h3" [] [Node.text "Database Internals Explained"]]) =
      "31/10/2025Database Internals Explained".data) ∧
    cedardb_parse_index (fun _ href => "https://cedardb.com" ++ href)
        cedardbExampleDoc "https://cedardb.com/blog/" =
      [{ title := "Database Internals Explained",
         url := "https://cedardb.com/blog/database-internals/",
         date := some ⟨2025, 10, 31⟩ }] := by
  exact ⟨by decide, by decide⟩

/- Generic index parsing (generic.py lines 35 to 91). -/

/-- Substrings of excluded non-post paths (generic.py lines 71 to 75). -/
def excludedPathSubs : List String :=
  ["/tag/", "/tags/", "/category/", "/author/", "/page/",
   "/search", "/about", "/contact", "/subscribe",
   ".xml", ".rss", ".json"]

/-- Loop body of GenericParser parse_index for one anchor: minimum title
length ten, base domain contained in the netloc of the resolved url, path
under the base path when one is present, not the index page itself, no
excluded path substring (checked on the lowercased path), deduplication by
resolved url, then append with the extracted date. -/
def genericIndexStep (join : String → String → String)
    (findDate : Node → String → Option PDate) (baseUrl baseDomain : String)
    (basePath : List Char) (posts : List BlogPost) (link : Node) :
    List BlogPost :=
  let href := link.attr "href"
  let title : String := ⟨nodeTextStrip link⟩
  if title.data.isEmpty ∨ title.data.length < 10 then posts
  else
    let url := join baseUrl href
    if !(hasSub (urlNetloc url) baseDomain) then posts
    else if !basePath.isEmpty && !(basePath.isPrefixOf (urlPath url).data) then
      posts
    else if rstripSlash (urlPath url).data = basePath then posts
    else if excludedPathSubs.any
        (fun pat => hasSub ⟨lowerChars (urlPath url).data⟩ pat) then posts
    else if posts.any (fun p => p.url == url) then posts
    else posts ++ [{ title := title, url := url, date := findDate link url }]

/-- GenericParser parse_index (generic.py lines 35 to 91), with urljoin of
the urllib collaborator passed as join and the date extraction pair
(_find_date_near_link or _extract_date_from_url) passed as findDate: the
date search walks parent pointers the functional tree does not carry, and
every filter under proof is independent of it. -/
def generic_parse_index (join : String → String → String)
    (findDate : Node → String → Option PDate) (doc : Node)
    (baseUrl : String) : List BlogPost :=
  (findAll anchorPred doc).foldl
    (genericIndexStep join findDate baseUrl (urlNetloc baseUrl)
      (rstripSlash (urlPath baseUrl).data))
    []

/-- Filter facts claim C7 asserts of every discovered post, with the domain
condition as the source codes it: containment of the base domain in the
netloc of the post url. -/
def genericPostOk (baseDomain : String) (basePath : List Char)
    (p : BlogPost) : Prop :=
  hasSub (urlNetloc p.url) baseDomain = true ∧
  (basePath.isEmpty = false →
    basePath.isPrefixOf (urlPath p.url).data = true) ∧
  rstripSlash (urlPath p.url).data ≠ basePath ∧
  (∀ pat ∈ excludedPathSubs,
    hasSub ⟨lowerChars (urlPath p.url).data⟩ pat = false) ∧
  10 ≤ p.title.data.length

theorem genericIndexStep_mem {join : String → String → String}
    {findDate : Node → String → Option PDate} {baseUrl baseDomain : String}
    {basePath : List Char} {posts : List BlogPost} {link : Node}
    {q : BlogPost}
    (hq : q ∈ genericIndexStep join findDate baseUrl baseDomain basePath
      posts link) :
    q ∈ posts ∨ genericPostOk baseDomain basePath q := by
  unfold genericIndexStep at hq
  by_cases h1 : (⟨nodeTextStrip link⟩ : String).data.isEmpty
      ∨ (⟨nodeTextStrip link⟩ : String).data.length < 10
  · rw [if_pos h1] at hq; exact Or.inl hq
  · rw [if_neg h1] at hq
    by_cases h2 : (!(hasSub (urlNetloc (join baseUrl (link.attr "href")))
        baseDomain)) = true
    · rw [if_pos h2] at hq; exact Or.inl hq
    · rw [if_neg h2] at hq
      by_cases h3 : (!basePath.isEmpty &&
          !(basePath.isPrefixOf
            (urlPath (join baseUrl (link.attr "href"))).data)) = true
      · rw [if_pos h3] at hq; exact Or.inl hq
      · rw [if_neg h3] at hq
        by_cases h4 : rstripSlash
            (urlPath (join baseUrl (link.attr "href"))).data = basePath
        · rw [if_pos h4] at hq; exact Or.inl hq
        · rw [if_neg h4] at hq
          by_cases h5 : (excludedPathSubs.any (fun pat =>
              hasSub ⟨lowerChars
                (urlPath (join baseUrl (link.attr "href"))).data⟩ pat)) = true
          · rw [if_pos h5] at hq; exact Or.inl hq
          · rw [if_neg h5] at hq
            by_cases h6 : (posts.any
                (fun p => p.url == join baseUrl (link.attr "href"))) = true
            · rw [if_pos h6] at hq; exact Or.inl hq
            · rw [if_neg h6] at hq
              rcases List.mem_append.mp hq with hmem | hnew
              · exact Or.inl hmem
              · right
                have hqe := List.mem_singleton.mp hnew
                subst hqe
                refine ⟨by simpa using h2, ?_, h4, ?_, ?_⟩
                · intro hne
                  have h3b : (!basePath.isEmpty &&
                      !basePath.isPrefixOf
                        (urlPath (join baseUrl (link.attr "href"))).data)
                      = false := by simpa using h3
                  rcases Bool.and_eq_false_iff.mp h3b with h | h
                  · have : basePath.isEmpty = true := by simpa using h
                    rw [this] at hne
                    cases hne
                  · show basePath.isPrefixOf
                      (urlPath (join baseUrl (link.attr "href"))).data = true
                    simpa using h
                · intro pat hpat
                  have h5b := List.any_eq_false.mp (by simpa using h5) pat hpat
                  simpa using h5b
                · push_neg at h1
                  show 10 ≤ (⟨nodeTextStrip link⟩ : String).data.length
                  omega

theorem genericIndex_foldl_inv (join : String → String → String)
    (findDate : Node → String → Option PDate) (baseUrl baseDomain : String)
    (basePath : List Char) :
    ∀ (links : List Node) (acc : List BlogPost),
      (∀ q ∈ acc, genericPostOk baseDomain basePath q) →
      ∀ p ∈ links.foldl
        (genericIndexStep join findDate baseUrl baseDomain basePath) acc,
        genericPostOk baseDomain basePath p := by
  intro links
  induction links with
  | nil => intro acc hacc p hp; exact hacc p hp
  | cons l ls ih =>
    intro acc hacc p hp
    refine ih (genericIndexStep join findDate baseUrl baseDomain basePath
      acc l) ?_ p hp
    intro q hq
    rcases genericIndexStep_mem hq with h | h
    · exact hacc q h
    · exact h

/-- Concrete index page for the C7 counterexample: a single long-titled
anchor to a host of a different domain that merely contains the base domain
as a substring. -/
def crossDomainDoc : Node :=
  .elem "html" [] [
    .elem "body" [] [
      .elem "a" [("href", "https://evilexample.com/a-long-title")] [
        .text "A sufficiently long title"]]]

/-- C7 counterexample: with base url on example.com, the generic index
parser keeps a link to evilexample.com, because the code only requires the
base domain to occur as a substring of the link netloc; the returned post
is not on the same domain as the base url. -/
theorem C7_counterexample :
    ((generic_parse_index (fun _ href => href) (fun _ _ => none)
        crossDomainDoc "https://example.com/").map BlogPost.url =
      ["https://evilexample.com/a-long-title"]) ∧
    urlNetloc "https://evilexample.com/a-long-title" ≠
      urlNetloc "https://example.com/" := by
  exact ⟨by decide, by decide⟩

/-- C7 corrected: every post returned by the generic parse_index satisfies
the filters as coded: the base domain occurs as a substring of the netloc
of the resolved url (containment, not same-domain equality), the path
extends the base path whenever that path is non-empty, the post is not the
index page itself, no excluded segment occurs in the lowercased path, and
the link-text title has at least ten characters. -/
theorem C7_generic_index_filters (join : String → String → String)
    (findDate : Node → String → Option PDate) (doc : Node) (baseUrl : String)
    (p : BlogPost) (hp : p ∈ generic_parse_index join findDate doc baseUrl) :
    genericPostOk (urlNetloc baseUrl) (rstripSlash (urlPath baseUrl).data)
      p := by
  unfold generic_parse_index at hp
  exact genericIndex_foldl_inv join findDate baseUrl _ _
    (findAll anchorPred doc) [] (by intro q hq; cases hq) p hp

/-- Concrete index page whose single anchor passes every filter of the
generic index parser. -/
def sameDomainDoc : Node :=
  .elem "html" [] [
    .elem "body" [] [
      .elem "a" [("href", "https://example.com/blog/a-long-title-post")] [
        .text "A sufficiently long title"]]]

/-- Witness: the corrected C7 theorem applied to a concrete discovered
post, discharging the membership hypothesis by evaluation. -/
theorem C7_generic_index_filters_witness :
    genericPostOk (urlNetloc "https://example.com/blog/")
      (rstripSlash (urlPath "https://example.com/blog/").data)
      { title := "A sufficiently long title",
        url := "https://example.com/blog/a-long-title-post", date := none } :=
  C7_generic_index_filters (fun _ href => href) (fun _ _ => none)
    sameDomainDoc "https://example.com/blog/"
    { title := "A sufficiently long title",
      url := "https://example.com/blog/a-long-title-post", date := none }
    (by decide)

/- Pagination link search (_find_pagination_link, scraper.py lines 149 to
   215). -/

/-- Match of the pagination regex slash page slash digits with an optional
final slash, anchored at the end of the text; returns the page number. The
digit run is the maximal trailing one, which the end anchor forces. -/
def pageNumberOf (s : List Char) : Option Nat :=
  let r := match s.reverse with
    | '/' :: rest => rest
    | other => other
  let digs := r.takeWhile Char.isDigit
  if digs.isEmpty then none
  else if "/page/".data.reverse.isPrefixOf (r.drop digs.length) then
    some (digitsToNat digs.reverse)
  else none

/-- Search anywhere in the text for the older-posts pattern: the literal
older, optional whitespace, then the literal post (the optional plural s of
the regex does not affect whether a match exists). -/
def olderPostsSearch : List Char → Bool
  | [] => false
  | c :: rest =>
    ("older".data.isPrefixOf (c :: rest) &&
      "post".data.isPrefixOf (((c :: rest).drop 5).dropWhile pySpace)) ||
    olderPostsSearch rest

/-- Literal consumption helper for the anchored text patterns. -/
def dropLit (lit : List Char) (s : List Char) : Option (List Char) :=
  if lit.isPrefixOf s then some (s.drop lit.length) else none

/-- End of an anchored pattern allowing one optional arrow character. -/
def optArrowEnd (s : List Char) : Bool :=
  s.isEmpty || s = ['→']

/-- First hidden pattern: next, whitespace, page, whitespace, optional
arrow. -/
def nextPageMatch (s : List Char) : Bool :=
  match dropLit "next".data s with
  | some r1 =>
    match dropLit "page".data (r1.dropWhile pySpace) with
    | some r2 => optArrowEnd (r2.dropWhile pySpace)
    | none => false
  | none => false

/-- Second hidden pattern: next, whitespace, then a mandatory arrow. -/
def nextArrowMatch (s : List Char) : Bool :=
  match dropLit "next".data s with
  | some r1 => (r1.dropWhile pySpace) = ['→']
  | none => false

/-- Tail shared by the doubled-backslash patterns: after the mandatory
literal backslash, a run of letter s, then an optional arrow and the end. -/
def backslashTail (r : List Char) : Bool :=
  optArrowEnd (r.dropWhile (fun c => c = 's'))

/-- Third hidden pattern, exactly as the raw string of the source reads:
more, whitespace, post, an optional s, then a LITERAL BACKSLASH (the source
writes a doubled backslash inside a raw string), a run of letter s, an
optional arrow, end. -/
def morePostsMatch (s : List Char) : Bool :=
  match dropLit "more".data s with
  | some r1 =>
    match dropLit "post".data (r1.dropWhile pySpace) with
    | some r2 =>
      (match dropLit "s\\".data r2 with
       | some r3 => backslashTail r3
       | none => false) ||
      (match dropLit "\\".data r2 with
       | some r3 => backslashTail r3
       | none => false)
    | none => false
  | none => false

/-- Fourth hidden pattern, exactly as the raw string of the source reads:
load, then a LITERAL BACKSLASH, a run of letter s, more, whitespace, an
optional arrow, end. -/
def loadMoreMatch (s : List Char) : Bool :=
  match dropLit "load\\".data s with
  | some r1 =>
    match dropLit "more".data (r1.dropWhile (fun c => c = 's')) with
    | some r2 => optArrowEnd (r2.dropWhile pySpace)
    | none => false
  | none => false

/-- Disjunction of the four hidden next patterns in source order. -/
def nextTextMatch (s : List Char) : Bool :=
  nextPageMatch s || nextArrowMatch s || morePostsMatch s || loadMoreMatch s

/-- Lowered stripped anchor text, as the pagination search computes it. -/
def anchorText (n : Node) : List Char := lowerChars (nodeTextStrip n)

/-- Second stage of the pagination search: fold over the anchors keeping
the highest page number strictly above the running maximum, which starts at
the current page number. -/
def highestPageFold (join : String → String → String) (currentUrl : String)
    (anchors : List Node) (currentPage : Nat) : Option String :=
  (anchors.foldl (fun acc link =>
    match pageNumberOf (link.attr "href").data with
    | some n =>
      if n > acc.1 then (n, some (join currentUrl (link.attr "href")))
      else acc
    | none => acc) (currentPage, (none : Option String))).2

/-- _find_pagination_link (scraper.py lines 149 to 215) over the anchors of
the page, with urljoin passed as join: first any anchor whose text contains
the older-posts pattern; else the slash page slash N link with the highest
number exceeding the current page number (default one); else the first
anchor with at least four characters of text matching one of the hidden
next patterns; else none. -/
def find_pagination_link (join : String → String → String) (doc : Node)
    (currentUrl : String) : Option String :=
  let anchors := findAll anchorPred doc
  let currentPage := (pageNumberOf currentUrl.data).getD 1
  match anchors.find? (fun l => olderPostsSearch (anchorText l)) with
  | some link => some (join currentUrl (link.attr "href"))
  | none =>
    match highestPageFold join currentUrl anchors currentPage with
    | some u => some u
    | none =>
      match anchors.find? (fun l =>
          decide (4 ≤ (anchorText l).length) &&
            nextTextMatch (anchorText l)) with
      | some link => some (join currentUrl (link.attr "href"))
      | none => none

/-- Page whose only pagination anchor reads Load More. -/
def loadMoreDoc : Node :=
  .elem "html" [] [
    .elem "body" [] [
      .elem "a" [("href", "/p2")] [.text "Load More"]]]

/-- Page whose only pagination anchor reads More Posts. -/
def morePostsDoc : Node :=
  .elem "html" [] [
    .elem "body" [] [
      .elem "a" [("href", "/p2")] [.text "More Posts"]]]

/-- Page whose only pagination anchor reads Next Page. -/
def nextPageDoc : Node :=
  .elem "html" [] [
    .elem "body" [] [
      .elem "a" [("href", "/p2")] [.text "Next Page"]]]

/-- Page offering all three stages at once. -/
def mixedPaginationDoc : Node :=
  .elem "html" [] [
    .elem "body" [] [
      .elem "a" [("href", "/page/3/")] [.text "Page three of the archive"],
      .elem "a" [("href", "/older")] [.text "Older Posts"],
      .elem "a" [("href", "/p2")] [.text "Next Page"]]]

/-- Page offering stage two and stage three. -/
def pageNumPaginationDoc : Node :=
  .elem "html" [] [
    .elem "body" [] [
      .elem "a" [("href", "/p2")] [.text "Next Page"],
      .elem "a" [("href", "/page/2/")] [.text "Second page of the archive"]]]

/-- C5: evaluation of the pagination search at the inputs that expose the
doubled-backslash slip of the source. Anchors reading Load More or More
Posts are never returned, because the raw-string patterns demand a literal
backslash character inside the anchor text; a Next Page anchor is returned,
the older-posts stage wins over every other stage, and the page-number
stage wins over the hidden-text stage. The last two conjuncts exhibit the
patterns directly: the plain phrasings fail and only a text carrying a
literal backslash matches. -/
theorem C5_next_patterns_bug :
    find_pagination_link (fun _ href => href) loadMoreDoc
        "http://blog.example/" = none ∧
    find_pagination_link (fun _ href => href) morePostsDoc
        "http://blog.example/" = none ∧
    find_pagination_link (fun _ href => href) nextPageDoc
        "http://blog.example/" = some "/p2" ∧
    find_pagination_link (fun _ href => href) mixedPaginationDoc
        "http://blog.example/" = some "/older" ∧
    find_pagination_link (fun _ href => href) pageNumPaginationDoc
        "http://blog.example/" = some "/page/2/" ∧
    morePostsMatch "more posts".data = false ∧
    loadMoreMatch "load more".data = false ∧
    morePostsMatch "more posts\\s".data = true ∧
    loadMoreMatch "load\\smore".data = true := by
  exact ⟨by decide, by decide, by decide, by decide, by decide, by decide,
    by decide, by decide, by decide⟩

/- Text normalizer: convert_latex_math (document.py lines 127 to 224). -/

/-- Symbol table of convert_latex_expression (document.py lines 146 to
180) in source order; every pattern is a literal once the regex escaping is
undone, so each entry is a plain replacement pair. -/
def latexReplacements : List (List Char × List Char) :=
  [("\\times".data, "×".data), ("\\cdot".data, "·".data),
   ("\\div".data, "÷".data), ("\\pm".data, "±".data),
   ("\\mp".data, "∓".data), ("\\leq".data, "≤".data),
   ("\\geq".data, "≥".data), ("\\neq".data, "≠".data),
   ("\\approx".data, "≈".data), ("\\infty".data, "∞".data),
   ("\\alpha".data, "α".data), ("\\beta".data, "β".data),
   ("\\gamma".data, "γ".data), ("\\delta".data, "δ".data),
   ("\\epsilon".data, "ε".data), ("\\theta".data, "θ".data),
   ("\\lambda".data, "λ".data), ("\\mu".data, "μ".data),
   ("\\pi".data, "π".data), ("\\sigma".data, "σ".data),
   ("\\omega".data, "ω".data), ("\\sum".data, "Σ".data),
   ("\\prod".data, "Π".data), ("\\sqrt".data, "√".data),
   ("\\log".data, "log".data), ("\\ln".data, "ln".data),
   ("\\sin".data, "sin".data), ("\\cos".data, "cos".data),
   ("\\tan".data, "tan".data), ("\\exp".data, "exp".data),
   ("\\,".data, " ".data), ("\\ ".data, " ".data), ("\\!".data, [])]

/-- The symbol substitutions applied one after the other in source order. -/
def applyLatexReplacements (s : List Char) : List Char :=
  latexReplacements.foldl (fun cur pr => replaceAllFuel pr.1 pr.2 cur.length cur) s

/-- Splits a text at its first closing brace: the brace-delimited content
(which therefore contains no closing brace) and the remainder; none when no
closing brace exists. -/
def braceContent : List Char → Option (List Char × List Char)
  | [] => none
  | '}' :: rest => some ([], rest)
  | c :: rest =>
    match braceContent rest with
    | some (content, r) => some (c :: content, r)
    | none => none

/-- One attempt of the superscript or subscript pattern at the head of the
text: the braced alternative (marker, opening brace, non-empty content,
closing brace) is tried first, then the single-character alternative
(marker followed by one character that is no whitespace, brace or
backslash); returns the produced span and the remainder. -/
def scriptMatchAt (marker : Char) (openTag closeTag : List Char) :
    List Char → Option (List Char × List Char)
  | m :: '{' :: t =>
    if m = marker then
      match braceContent t with
      | some (content, rest) =>
        if content.isEmpty then none
        else some (openTag ++ content ++ closeTag, rest)
      | none => none
    else none
  | m :: c :: t =>
    if m = marker ∧ ¬ pySpace c = true ∧ c ≠ '{' ∧ c ≠ '}' ∧ c ≠ '\\' then
      some (openTag ++ [c] ++ closeTag, t)
    else none
  | _ => none

/-- Global substitution of the superscript or subscript pattern, leftmost
match first, resuming after each match. -/
def scriptSub (marker : Char) (openTag closeTag : List Char) :
    Nat → List Char → List Char
  | 0, s => s
  | _ + 1, [] => []
  | fuel + 1, c :: rest =>
    match scriptMatchAt marker openTag closeTag (c :: rest) with
    | some (repl, remainder) =>
      repl ++ scriptSub marker openTag closeTag fuel remainder
    | none => c :: scriptSub marker openTag closeTag fuel rest

/-- Removal of the remaining unknown commands: a backslash followed by a
non-empty greedy run of ASCII letters disappears. -/
def removeCommands : Nat → List Char → List Char
  | 0, s => s
  | _ + 1, [] => []
  | fuel + 1, '\\' :: c :: rest =>
    if c.isAlpha then removeCommands fuel ((c :: rest).dropWhile Char.isAlpha)
    else '\\' :: removeCommands fuel (c :: rest)
  | fuel + 1, c :: rest => c :: removeCommands fuel rest

/-- Removal of all residual braces. -/
def removeBraces (s : List Char) : List Char :=
  s.filter (fun c => (c != '{') && (c != '}'))

/-- convert_latex_expression (document.py lines 140 to 205): the symbol
substitutions in source order, superscript conversion, subscript
conversion, unknown-command removal, brace removal and a final strip. -/
def convert_latex_expression (latex : List Char) : List Char :=
  let r1 := applyLatexReplacements latex
  let r2 := scriptSub '^' "<sup>".data "</sup>".data r1.length r1
  let r3 := scriptSub '_' "<sub>".data "</sub>".data r2.length r2
  let r4 := removeCommands r3.length r3
  trimChars (removeBraces r4)

/-- Splits a text at the first occurrence of the closing delimiter,
returning content and remainder. -/
def splitAtClose (close : List Char) : List Char → Option (List Char × List Char)
  | [] => none
  | c :: rest =>
    if close.isPrefixOf (c :: rest) then some ([], (c :: rest).drop close.length)
    else
      match splitAtClose close rest with
      | some (content, r) => some (c :: content, r)
      | none => none

/-- Lazy non-empty content of a math group: one mandatory character, then
everything up to the earliest closing delimiter. -/
def mathContent (close : List Char) : List Char → Option (List Char × List Char)
  | [] => none
  | c :: rest =>
    match splitAtClose close rest with
    | some (content, r) => some (c :: content, r)
    | none => none

/-- Global substitution of one math delimiter pair: at each opening
delimiter with a closable non-empty group, the group is converted and the
scan resumes after the closing delimiter; otherwise the character is kept. -/
def mathSub (openD closeD : List Char) : Nat → List Char → List Char
  | 0, s => s
  | _ + 1, [] => []
  | fuel + 1, c :: rest =>
    if openD.isPrefixOf (c :: rest) then
      match mathContent closeD ((c :: rest).drop openD.length) with
      | some (content, remainder) =>
        convert_latex_expression content ++ mathSub openD closeD fuel remainder
      | none => c :: mathSub openD closeD fuel rest
    else c :: mathSub openD closeD fuel rest

/-- Currency test of convert_dollar_math: digits with an optional decimal
part after stripping. -/
def isBareNumber (s : List Char) : Bool :=
  let t := trimChars s
  let digs := t.takeWhile Char.isDigit
  if digs.isEmpty then false
  else
    match t.drop digs.length with
    | [] => true
    | '.' :: frac => !frac.isEmpty && frac.all Char.isDigit
    | _ => false

/-- Splits a text at its first dollar sign. -/
def splitAtDollar : List Char → Option (List Char × List Char)
  | [] => none
  | '$' :: rest => some ([], rest)
  | c :: rest =>
    match splitAtDollar rest with
    | some (content, r) => some (c :: content, r)
    | none => none

/-- Leading character digit test, the negative lookahead of the dollar
pattern. -/
def headIsDigit : List Char → Bool
  | d :: _ => d.isDigit
  | [] => false

/-- Global substitution of the dollar math pattern: an opening dollar not
preceded by a backslash or dollar (prev carries the previous character of
the original text), a non-empty dollar-free group, a closing dollar not
followed by a digit; bare numbers are kept verbatim as currency, every
other group is converted. -/
def dollarSub (prev : Option Char) : Nat → List Char → List Char
  | 0, s => s
  | _ + 1, [] => []
  | fuel + 1, c :: rest =>
    if c = '$' ∧ prev ≠ some '\\' ∧ prev ≠ some '$' then
      match splitAtDollar rest with
      | some (content, remainder) =>
        if content.isEmpty ∨ headIsDigit remainder = true then
          c :: dollarSub (some c) fuel rest
        else
          (if isBareNumber content then '$' :: (content ++ ['$'])
           else convert_latex_expression content) ++
            dollarSub (some '$') fuel remainder
      | none => c :: dollarSub (some c) fuel rest
    else c :: dollarSub (some c) fuel rest

/-- convert_latex_math (document.py lines 127 to 224): empty text is
returned unchanged; otherwise the inline math pattern, the display math
pattern and the dollar math pattern are substituted over the text in that
order. -/
def convert_latex_math (text : String) : String :=
  if text.data.isEmpty then text
  else
    let t1 := mathSub "\\(".data "\\)".data text.data.length text.data
    let t2 := mathSub "\\[".data "\\]".data t1.length t1
    ⟨dollarSub none t2.length t2⟩

/-- C9: the LaTeX math conversion maps the inline product expression to
the superscripted text: the delimiters are removed, the times command
becomes the multiplication glyph, and the braced superscript becomes a sup
span with the braces stripped. -/
theorem C9_latex_math_example :
    convert_latex_math "\\(3 \\times 10^{-11}\\)" = "3 × 10<sup>-11</sup>" := by
  decide

/- Post hydration: fetch_post_content (scraper.py lines 218 to 232). -/

/-- fetch_post_content (scraper.py lines 218 to 232) in state-passing
form: fetch the post url (none models a raised ScraperError, which
propagates before any assignment happens, so the caller keeps the original
post), then assign the parse_post result to content_html; the ok value is
the state of the post after the call. -/
def fetch_post_content (fetch : String → Option String)
    (parsePost : String → String → String) (post : BlogPost) :
    Except String BlogPost :=
  match fetch post.url with
  | none => Except.error post.url
  | some html =>
    Except.ok { post with content_html := parsePost html post.url }

/-- C10: hydration of one post writes only the content field: a successful
fetch produces a post whose title, url, date and author are exactly the
originals and whose content_html is exactly the parse_post output; a failed
fetch raises before any assignment, leaving the caller with the post
unchanged. -/
theorem C10_hydration_frame (fetch : String → Option String)
    (parsePost : String → String → String) (post : BlogPost) :
    (∀ html, fetch post.url = some html →
      fetch_post_content fetch parsePost post =
        Except.ok { title := post.title, url := post.url, date := post.date,
                    author := post.author,
                    content_html := parsePost html post.url }) ∧
    (fetch post.url = none →
      fetch_post_content fetch parsePost post = Except.error post.url) := by
  constructor
  · intro html h
    unfold fetch_post_content
    rw [h]
  · intro h
    unfold fetch_post_content
    rw [h]

/-- Witness: the C10 theorem applied at a concrete post and fetcher,
discharging the fetch hypotheses on explicit inputs. -/
theorem C10_hydration_frame_witness :
    fetch_post_content
      (fun u => if u = "https://e.com/p1" then some "HTML" else none)
      (fun h u => h ++ "@" ++ u)
      { title := "T", url := "https://e.com/p1", date := none,
        author := some "A", content_html := "" } =
      Except.ok { title := "T", url := "https://e.com/p1", date := none,
                  author := some "A",
                  content_html := "HTML@https://e.com/p1" } ∧
    fetch_post_content
      (fun u => if u = "https://e.com/p1" then some "HTML" else none)
      (fun h u => h ++ "@" ++ u)
      { title := "T", url := "https://e.com/p2", date := none,
        author := some "A", content_html := "" } =
      Except.error "https://e.com/p2" := by
  constructor
  · exact (C10_hydration_frame _ _ _).1 "HTML" (by decide)
  · exact (C10_hydration_frame _ _ _).2 (by decide)

end Eblog2doc
